import Mathlib

/-!
Verification of the cert-expiry-check host-check engine (src/index.js) via a
shallow embedding.

Modelling conventions:
* JS numbers that hold millisecond timestamps or day counts are embedded as
  Int; a JS NaN (invalid date, failed comparison operand) is embedded as
  Option Int with none playing the role of NaN / Invalid Date.
* JS objects passed by reference (the caller-supplied host objects) live in a
  heap `Nat -> HostObj`; a reference is a Nat index, and in-place mutation is
  a heap update at that index.
* Date.parse is a platform primitive; it is a parameter of type
  String -> Option Int (none = NaN).  Date.now() is a clock read; the value
  read is passed explicitly to the embedded getExpiry.
* Math.round(x / d) on exact integer inputs with positive integer divisor is
  floor(x/d + 1/2) = (2x + d) floor-div (2d), embedded as jsRound x d using
  Int.fdiv so it is kernel-computable; jsRound_eq_floor states the
  floor(x/d + 1/2) characterisation.
* https.request is the network collaborator: a function from the host object
  (as it is when the request is issued) to Except String PeerCertificate,
  the error branch being the rejection delivered on the request error event.
* Promise.all is modelled by promiseAll, parameterised by the completion
  order of the per-host promises: it rejects with the first rejection in
  completion order and otherwise fulfils with the values in input order.
-/

namespace CertExpiry

/-- JS Math.round(x / d) for integer x and positive integer d: round half
toward positive infinity, computed as floor((2x + d)/(2d)). -/
def jsRound (x d : Int) : Int := Int.fdiv (2 * x + d) (2 * d)

/-- JS comparison a <= b where either operand may be NaN (none): any
comparison with NaN is false. -/
def jsLeB : Option Int → Option Int → Bool
  | some a, some b => decide (a ≤ b)
  | _, _ => false

/-- The per-instance config built by the constructor (src/index.js:23-30). -/
structure Config where
  timeout : Int
  defaultPort : Int
  defaultAlertWindowDays : Int
  userAgent : String
deriving Repr, DecidableEq

/-- A JS host object as supplied by the caller and mutated by the checker.
Optional fields are none when the property is absent (undefined). -/
structure HostObj where
  hostname : String
  port : Option Int := none
  alertWindowDays : Option Int := none
  userAgent : Option String := none
  headers : Option (List (String × String)) := none
  method : Option String := none
deriving Repr, DecidableEq

/-- JS `v || d` for a possibly-absent number field: 0 and undefined are
falsy, so both fall back to the default. -/
def jsOrInt : Option Int → Int → Int
  | some v, d => if v = 0 then d else v
  | none, d => d

/-- JS `v || d` for a possibly-absent string field: the empty string and
undefined are falsy. -/
def jsOrStr : Option String → String → String
  | some v, d => if v = "" then d else v
  | none, d => d

/-- The body of the buildHostConfig map callback (src/index.js:58-64): the
host object is updated in place with resolved port, alertWindowDays and a
fresh headers object holding the User-Agent entry. -/
def resolveHost (cfg : Config) (h : HostObj) : HostObj :=
  { h with
    port := some (jsOrInt h.port cfg.defaultPort)
    alertWindowDays := some (jsOrInt h.alertWindowDays cfg.defaultAlertWindowDays)
    headers := some [("User-Agent", jsOrStr h.userAgent cfg.userAgent)] }

/-- The heap of JS host objects; a caller-supplied host is a reference
(a Nat) into it. -/
abbrev Heap := Nat → HostObj

def heapSet (hp : Heap) (r : Nat) (v : HostObj) : Heap :=
  fun n => if n = r then v else hp n

/-- In-place mutation of the object behind reference r by f. -/
def heapMapAt (f : HostObj → HostObj) (hp : Heap) (r : Nat) : Heap :=
  heapSet hp r (f (hp r))

/-- buildHostConfig (src/index.js:56-66): hosts.map over the caller's array
of references, mutating each referenced object in place and returning the
same references. -/
def buildHostConfig (cfg : Config) (hp : Heap) (refs : List Nat) : Heap × List Nat :=
  (refs.foldl (heapMapAt (resolveHost cfg)) hp, refs)

/-- Raw issuer/subject sub-object of a node peer certificate: the O and CN
properties may be absent. -/
structure RawName where
  O : Option String := none
  CN : Option String := none
deriving Repr, DecidableEq

/-- The raw peer certificate structure returned by
res.connection.getPeerCertificate(). -/
structure PeerCertificate where
  subjectaltname : Option String := none
  subject : RawName
  issuer : RawName
  valid_from : String
  valid_to : String
deriving Repr, DecidableEq

/-- The platform Date.parse primitive: none models NaN (unparseable). -/
abbrev DateParse := String → Option Int

/-- parseDate (src/index.js:130-132): new Date(Date.parse(s)).  Date.parse
of an unparseable string is NaN and new Date(NaN) is an Invalid Date, so the
result is none; no exception is ever thrown. -/
def parseDate (dateParse : DateParse) (s : String) : Option Int :=
  dateParse s

structure SubjectDetails where
  org : Option String
  commonName : Option String
  altName : Option String
deriving Repr, DecidableEq

structure IssuerDetails where
  org : Option String
  commonName : Option String
deriving Repr, DecidableEq

structure CertificateDetails where
  subject : SubjectDetails
  issuer : IssuerDetails
deriving Repr, DecidableEq

/-- The expiry record built by getExpiry; days/milliseconds are none when
the subtraction involved an Invalid Date (NaN). -/
structure Expiry where
  days : Option Int
  milliseconds : Option Int
  isExpired : Bool
  isInAlertWindow : Bool
deriving Repr, DecidableEq

/-- A per-host check result; host is the reference to the caller's host
object (the JS result stores that same reference, not a copy). -/
structure CheckResult where
  host : Nat
  details : CertificateDetails
  validFrom : Option Int
  validTo : Option Int
  expiry : Expiry
deriving Repr, DecidableEq

/-- getExpiry (src/index.js:146-157).  In the source, now is read from
Date.now() inside the function; the embedding passes the value of that clock
read explicitly.  thenDate is the parsed valid_to date (none = Invalid
Date, propagating NaN through the arithmetic and making both comparisons
false).  Math.round(then - now) on an integer difference is jsRound d 1. -/
def getExpiry (thenDate : Option Int) (now : Int) (host : HostObj) : Expiry :=
  let dayInMS : Int := 86400000
  let deltaMs : Option Int := thenDate.map (fun t => t - now)
  let daysToExpiry : Option Int := deltaMs.map (fun d => jsRound d dayInMS)
  { days := daysToExpiry
    milliseconds := deltaMs.map (fun d => jsRound d 1)
    isExpired := jsLeB daysToExpiry (some 0)
    isInAlertWindow := jsLeB daysToExpiry host.alertWindowDays }

/-- hydrateResultObject (src/index.js:104-122).  hostRef is the reference
stored in the result; host is the current value of the referenced object. -/
def hydrateResultObject (dp : DateParse) (now : Int) (raw : PeerCertificate)
    (hostRef : Nat) (host : HostObj) : CheckResult :=
  { host := hostRef
    details :=
      { subject :=
          { org := raw.subject.O
            commonName := raw.subject.CN
            altName := raw.subjectaltname }
        issuer :=
          { org := raw.issuer.O
            commonName := raw.issuer.CN } }
    validFrom := parseDate dp raw.valid_from
    validTo := parseDate dp raw.valid_to
    expiry := getExpiry (parseDate dp raw.valid_to) now host }

/-- The network collaborator (https.request wired to the TLS stack): given
the host object as it is when the request is issued, either the peer
certificate delivered to the response callback or the error delivered on the
request error event. -/
abbrev Network := HostObj → Except String PeerCertificate

/-- The assignment host.method = GET performed inside the checkHost promise
executor (src/index.js:82). -/
def setMethod (h : HostObj) : HostObj := { h with method := some "GET" }

/-- The settlement of one checkHost promise (src/index.js:78-90): the host
object (with method set) is handed to https.request; on response the result
is hydrated from the peer certificate, on request error the promise rejects
with that error.  r is the reference to the host object, host its value
before the method assignment. -/
def checkOutcome (net : Network) (dp : DateParse) (now : Int)
    (host : HostObj) (r : Nat) : Except String CheckResult :=
  match net (setMethod host) with
  | Except.ok raw => Except.ok (hydrateResultObject dp now raw r (setMethod host))
  | Except.error e => Except.error e

/-- checkHost (src/index.js:78-90) as a heap transformer: it mutates the
referenced host object in place (method = GET) and yields the settlement of
its promise. -/
def checkHost (net : Network) (dp : DateParse) (now : Int)
    (hp : Heap) (r : Nat) : Heap × Except String CheckResult :=
  (heapMapAt setMethod hp r, checkOutcome net dp now (hp r) r)

/-- The .map(this.checkHost.bind(this)) step of checkHosts: checkHost runs
synchronously for each reference in input order, threading the heap. -/
def runChecks (net : Network) (dp : DateParse) (now : Int) :
    Heap → List Nat → Heap × List (Except String CheckResult)
  | hp, [] => (hp, [])
  | hp, r :: tl =>
    let step := checkHost net dp now hp r
    let rest := runChecks net dp now step.fst tl
    (rest.fst, step.snd :: rest.snd)

/-- The first rejection among the per-host promises in completion order:
order lists positions into outcomes in the order the promises settle. -/
def firstError {ε α : Type} : List (Except ε α) → List Nat → Option ε
  | _, [] => none
  | outcomes, i :: tl =>
    match outcomes.get? i with
    | some (Except.error e) => some e
    | _ => firstError outcomes tl

/-- Fulfilment value of Promise.all: the values of all promises in input
order (meaningful when no promise rejects). -/
def collectOk {ε α : Type} : List (Except ε α) → Except ε (List α)
  | [] => Except.ok []
  | Except.ok a :: tl => (collectOk tl).map (fun l => a :: l)
  | Except.error e :: _ => Except.error e

/-- Promise.all over the per-host promises: rejects with the first rejection
in completion order, otherwise fulfils with the values in input order. -/
def promiseAll {ε α : Type} (outcomes : List (Except ε α)) (order : List Nat) :
    Except ε (List α) :=
  match firstError outcomes order with
  | some e => Except.error e
  | none => collectOk outcomes

/-- checkHosts (src/index.js:42-44):
Promise.all(this.buildHostConfig(hosts).map(this.checkHost.bind(this))).
order is the completion order of the per-host promises. -/
def checkHosts (cfg : Config) (net : Network) (dp : DateParse) (now : Int)
    (order : List Nat) (hp : Heap) (refs : List Nat) :
    Heap × Except String (List CheckResult) :=
  let built := buildHostConfig cfg hp refs
  let ran := runChecks net dp now built.fst built.snd
  (ran.fst, promiseAll ran.snd order)

end CertExpiry

namespace CertExpiry

/-! Facts about jsRound. -/

/-- jsRound x d is exactly floor(x/d + 1/2), the reference rounding of the
spec (round half toward positive infinity, as JS Math.round). -/
theorem jsRound_eq_floor (x d : Int) (hd : 0 < d) :
    jsRound x d = ⌊((x : ℚ) / (d : ℚ)) + 1/2⌋ := by
  have hd2 : ((2 * d).toNat : Int) = 2 * d := Int.toNat_of_nonneg (by positivity)
  have hq : ((x : ℚ) / (d : ℚ)) + 1/2
      = ((2 * x + d : Int) : ℚ) / (((2 * d).toNat : ℕ) : ℚ) := by
    have : (((2 * d).toNat : ℕ) : ℚ) = ((2 * d : Int) : ℚ) := by
      exact_mod_cast congrArg (fun z : Int => (z : ℚ)) hd2
    rw [this]
    have hdq : (d : ℚ) ≠ 0 := by
      exact_mod_cast ne_of_gt hd
    push_cast
    field_simp
    ring
  rw [hq, Rat.floor_intCast_div_natCast, hd2]
  exact Int.fdiv_eq_ediv _ (by positivity)

/-- Rounding an exact multiple of the divisor recovers the multiplier. -/
theorem jsRound_mul_day (k : Int) : jsRound (k * 86400000) 86400000 = k := by
  unfold jsRound
  rw [Int.fdiv_eq_ediv _ (by norm_num)]
  omega

/-- Math.round of an integer is itself. -/
theorem jsRound_one (x : Int) : jsRound x 1 = x := by
  unfold jsRound
  rw [Int.fdiv_eq_ediv _ (by norm_num)]
  omega

/-- C1: for every valid validTo timestamp, clock reading now, and integer
alert window w carried by the host object, getExpiry returns
days = round((validTo - now)/86400000) = floor((validTo - now)/86400000 + 1/2),
milliseconds = round(validTo - now) = validTo - now, isExpired = (days <= 0),
isInAlertWindow = (days <= w); in particular validTo = now + 60 days gives
days = 60 and isExpired = false, and validTo = now - 5 days gives days = -5
and isExpired = true. -/
theorem getExpiry_spec (vt now w : Int) (h : HostObj)
    (hw : h.alertWindowDays = some w) :
    (getExpiry (some vt) now h).days = some (jsRound (vt - now) 86400000) ∧
    jsRound (vt - now) 86400000 = ⌊(((vt - now : Int) : ℚ) / 86400000) + 1/2⌋ ∧
    (getExpiry (some vt) now h).milliseconds = some (vt - now) ∧
    (getExpiry (some vt) now h).isExpired
      = decide (jsRound (vt - now) 86400000 ≤ 0) ∧
    (getExpiry (some vt) now h).isInAlertWindow
      = decide (jsRound (vt - now) 86400000 ≤ w) ∧
    (vt = now + 60 * 86400000 →
      (getExpiry (some vt) now h).days = some 60 ∧
      (getExpiry (some vt) now h).isExpired = false) ∧
    (vt = now - 5 * 86400000 →
      (getExpiry (some vt) now h).days = some (-5) ∧
      (getExpiry (some vt) now h).isExpired = true) := by
  refine ⟨rfl, jsRound_eq_floor (vt - now) 86400000 (by norm_num), ?_, rfl, ?_, ?_, ?_⟩
  · show some (jsRound (vt - now) 1) = some (vt - now)
    rw [jsRound_one]
  · simp [getExpiry, jsLeB, hw]
  · intro hvt
    subst hvt
    constructor
    · show some (jsRound (now + 60 * 86400000 - now) 86400000) = some 60
      rw [show (now + 60 * 86400000 - now : Int) = (60 : Int) * 86400000 by ring,
        jsRound_mul_day]
    · show jsLeB (some (jsRound (now + 60 * 86400000 - now) 86400000)) (some 0) = false
      rw [show (now + 60 * 86400000 - now : Int) = (60 : Int) * 86400000 by ring,
        jsRound_mul_day]
      decide
  · intro hvt
    subst hvt
    constructor
    · show some (jsRound (now - 5 * 86400000 - now) 86400000) = some (-5)
      rw [show (now - 5 * 86400000 - now : Int) = (-5 : Int) * 86400000 by ring,
        jsRound_mul_day]
    · show jsLeB (some (jsRound (now - 5 * 86400000 - now) 86400000)) (some 0) = true
      rw [show (now - 5 * 86400000 - now : Int) = (-5 : Int) * 86400000 by ring,
        jsRound_mul_day]
      decide

/-- Witness for getExpiry_spec at vt = 60 days, now = 0, w = 30. -/
theorem getExpiry_spec_witness :
    ({ hostname := "www.google.com", alertWindowDays := some 30 } : HostObj).alertWindowDays
        = some 30 ∧
    (getExpiry (some (60 * 86400000)) 0
        { hostname := "www.google.com", alertWindowDays := some 30 }).days
      = some (jsRound (60 * 86400000 - 0) 86400000) := by
  refine ⟨rfl, ?_⟩
  exact (getExpiry_spec (60 * 86400000) 0 30
    { hostname := "www.google.com", alertWindowDays := some 30 } rfl).1

/-- C2 counterexample: in the source, getExpiry reads now from Date.now()
inside the function body (src/index.js:147) rather than taking it as a
parameter, so two runs of the computation on the same validTo and
alertWindowDays, performed at different clock times, produce different
ExpiryStatus results: with validTo = 0 and alertWindowDays = 30, a run at
clock 0 gives days = 0 while a run at clock 86400000 gives days = -1. -/
theorem getExpiry_clock_dependent :
    getExpiry (some 0) 0 { hostname := "a", alertWindowDays := some 30 }
      ≠ getExpiry (some 0) 86400000 { hostname := "a", alertWindowDays := some 30 } := by
  decide

/-- C2 amended: now is not injected — getExpiry reads the global clock
internally — but the computation is side-effect-free and is a deterministic
function of validTo, the clock value read, and alertWindowDays: two runs
that observe the same clock value and the same alertWindowDays produce
identical ExpiryStatus results, whatever the rest of the host object is. -/
theorem getExpiry_deterministic (vtd : Option Int) (now : Int) (h1 h2 : HostObj)
    (hw : h1.alertWindowDays = h2.alertWindowDays) :
    getExpiry vtd now h1 = getExpiry vtd now h2 := by
  unfold getExpiry
  rw [hw]

/-- Witness for getExpiry_deterministic on two distinct host objects with
the same alert window. -/
theorem getExpiry_deterministic_witness :
    ({ hostname := "a", alertWindowDays := some 30 } : HostObj).alertWindowDays
        = ({ hostname := "b", alertWindowDays := some 30 } : HostObj).alertWindowDays ∧
    getExpiry (some 86400000) 0 { hostname := "a", alertWindowDays := some 30 }
      = getExpiry (some 86400000) 0 { hostname := "b", alertWindowDays := some 30 } :=
  ⟨rfl, getExpiry_deterministic (some 86400000) 0
    { hostname := "a", alertWindowDays := some 30 }
    { hostname := "b", alertWindowDays := some 30 } rfl⟩

/-- C7: whenever the host's alertWindowDays is a non-negative integer w,
isExpired = true implies isInAlertWindow = true: both flags derive from the
same days value, and days <= 0 together with 0 <= w gives days <= w (when
days is NaN both flags are false and the implication is vacuous). -/
theorem isExpired_implies_isInAlertWindow (vtd : Option Int) (now w : Int)
    (h : HostObj) (hw : h.alertWindowDays = some w) (hnn : 0 ≤ w)
    (hexp : (getExpiry vtd now h).isExpired = true) :
    (getExpiry vtd now h).isInAlertWindow = true := by
  cases vtd with
  | none => simp [getExpiry, jsLeB] at hexp
  | some vt =>
    have hd : (getExpiry (some vt) now h).isExpired
        = decide (jsRound (vt - now) 86400000 ≤ 0) := rfl
    rw [hd] at hexp
    have hle : jsRound (vt - now) 86400000 ≤ 0 := of_decide_eq_true hexp
    show jsLeB (some (jsRound (vt - now) 86400000)) h.alertWindowDays = true
    rw [hw]
    show decide (jsRound (vt - now) 86400000 ≤ w) = true
    exact decide_eq_true (le_trans hle hnn)

/-- Witness for isExpired_implies_isInAlertWindow at validTo five days
before the clock reading and a 30-day window. -/
theorem isExpired_implies_isInAlertWindow_witness :
    ({ hostname := "a", alertWindowDays := some 30 } : HostObj).alertWindowDays = some 30 ∧
    (0 : Int) ≤ 30 ∧
    (getExpiry (some (-432000000)) 0
      { hostname := "a", alertWindowDays := some 30 }).isExpired = true ∧
    (getExpiry (some (-432000000)) 0
      { hostname := "a", alertWindowDays := some 30 }).isInAlertWindow = true :=
  ⟨rfl, by decide, by decide,
    isExpired_implies_isInAlertWindow (some (-432000000)) 0 30
      { hostname := "a", alertWindowDays := some 30 } rfl (by decide) (by decide)⟩

/-- C4: for every GlobalConfig and HostSpec, the resolved port is
HostSpec.port when that field is present and truthy (nonzero) and
GlobalConfig.defaultPort otherwise — in particular an explicit port = 0 is
replaced by the default — and likewise for alertWindowDays and the
User-Agent header (truthy for a string meaning non-empty). -/
theorem resolveHost_override (cfg : Config) (h : HostObj) :
    (∀ p : Int, h.port = some p → p ≠ 0 → (resolveHost cfg h).port = some p) ∧
    ((h.port = none ∨ h.port = some 0) →
      (resolveHost cfg h).port = some cfg.defaultPort) ∧
    (∀ a : Int, h.alertWindowDays = some a → a ≠ 0 →
      (resolveHost cfg h).alertWindowDays = some a) ∧
    ((h.alertWindowDays = none ∨ h.alertWindowDays = some 0) →
      (resolveHost cfg h).alertWindowDays = some cfg.defaultAlertWindowDays) ∧
    (∀ u : String, h.userAgent = some u → u ≠ "" →
      (resolveHost cfg h).headers = some [("User-Agent", u)]) ∧
    ((h.userAgent = none ∨ h.userAgent = some "") →
      (resolveHost cfg h).headers = some [("User-Agent", cfg.userAgent)]) := by
  refine ⟨?_, ?_, ?_, ?_, ?_, ?_⟩
  · intro p hp hne
    simp [resolveHost, jsOrInt, hp, hne]
  · rintro (hp | hp) <;> simp [resolveHost, jsOrInt, hp]
  · intro a ha hne
    simp [resolveHost, jsOrInt, ha, hne]
  · rintro (ha | ha) <;> simp [resolveHost, jsOrInt, ha]
  · intro u hu hne
    simp [resolveHost, jsOrStr, hu, hne]
  · rintro (hu | hu) <;> simp [resolveHost, jsOrStr, hu]

/-- The default instance config (constructor defaults, src/index.js:24-29,
with the package version string of the README). -/
def sampleConfig : Config :=
  { timeout := 5000
    defaultPort := 443
    defaultAlertWindowDays := 30
    userAgent := "SSL Certificate Expiry Checker 0.1.0" }

/-- Witness for resolveHost_override: an explicit port 1234 survives and an
explicit port 0 falls back to defaultPort 443. -/
theorem resolveHost_override_witness :
    ({ hostname := "a", port := some 1234 } : HostObj).port = some 1234 ∧
    (1234 : Int) ≠ 0 ∧
    (resolveHost sampleConfig { hostname := "a", port := some 1234 }).port = some 1234 ∧
    (resolveHost sampleConfig { hostname := "b", port := some 0 }).port = some 443 :=
  ⟨rfl, by decide,
    (resolveHost_override sampleConfig
      { hostname := "a", port := some 1234 }).1 1234 rfl (by decide),
    (resolveHost_override sampleConfig
      { hostname := "b", port := some 0 }).2.1 (Or.inr rfl)⟩

/-- C9: hydrating a raw peer certificate copies subject.O, subject.CN,
subjectaltname, issuer.O and issuer.CN verbatim into
details.subject.org/commonName/altName and details.issuer.org/commonName;
an absent (none) field is passed through as none — hydration is total, so
no absence of these fields can make it fail. -/
theorem hydrate_details_roundtrip (dp : DateParse) (now : Int)
    (raw : PeerCertificate) (hostRef : Nat) (host : HostObj) :
    (hydrateResultObject dp now raw hostRef host).details
      = { subject :=
            { org := raw.subject.O
              commonName := raw.subject.CN
              altName := raw.subjectaltname }
          issuer :=
            { org := raw.issuer.O
              commonName := raw.issuer.CN } } ∧
    (raw.subject.O = none →
      (hydrateResultObject dp now raw hostRef host).details.subject.org = none) ∧
    (raw.subjectaltname = none →
      (hydrateResultObject dp now raw hostRef host).details.subject.altName = none) ∧
    (raw.issuer.CN = none →
      (hydrateResultObject dp now raw hostRef host).details.issuer.commonName = none) :=
  ⟨rfl, fun h => h, fun h => h, fun h => h⟩

/-- The raw peer certificate served by the test stub
(src/test/helpers/https.stub.js:24-36), with date strings that stand for
whatever the stub formats. -/
def sampleCert : PeerCertificate :=
  { subjectaltname := some "Alt name"
    subject := { O := some "Org name", CN := some "Common name" }
    issuer := { O := some "Issuer org name", CN := some "Issuer common name" }
    valid_from := "from-string"
    valid_to := "to-string" }

/-- A Date.parse for which no string is parseable (every parse is NaN). -/
def noParse : DateParse := fun _ => none

/-- A network on which every request succeeds and serves sampleCert. -/
def netSample : Network := fun _ => Except.ok sampleCert

/-- C3 counterexample: there is no MalformedCertificateError anywhere in the
code — when the peer certificate's validity dates cannot be parsed,
parseDate produces an Invalid Date (new Date(NaN)) without throwing, and the
per-host promise still fulfils with a CheckResult, not an error: under a
Date.parse that parses nothing, the settlement of the check is ok (and its
validTo is the Invalid Date marker). -/
theorem checkOutcome_unparseable_dates_not_error :
    noParse sampleCert.valid_to = none ∧
    (checkOutcome netSample noParse 0 { hostname := "www.google.com" } 7).toOption.isSome
      = true ∧
    (checkOutcome netSample noParse 0 { hostname := "www.google.com" } 7)
      = Except.ok (hydrateResultObject noParse 0 sampleCert 7
          (setMethod { hostname := "www.google.com" })) := by
  exact ⟨rfl, rfl, rfl⟩

/-- C3 amended: when the validity date fields cannot be parsed, the field
parsing does NOT fail (no MalformedCertificateError exists in the code): the
per-host result is an ok CheckResult whose validTo is the Invalid Date
marker and whose expiry carries NaN days and both flags false; absence of
issuer/subject fields likewise never causes a failure (hydration is total,
see hydrate_details_roundtrip). -/
theorem unparseable_dates_no_failure (net : Network) (dp : DateParse)
    (now : Int) (host : HostObj) (r : Nat) (raw : PeerCertificate)
    (hnet : net (setMethod host) = Except.ok raw)
    (hbad : dp raw.valid_to = none) :
    checkOutcome net dp now host r
      = Except.ok (hydrateResultObject dp now raw r (setMethod host)) ∧
    (hydrateResultObject dp now raw r (setMethod host)).validTo = none ∧
    (hydrateResultObject dp now raw r (setMethod host)).expiry.days = none ∧
    (hydrateResultObject dp now raw r (setMethod host)).expiry.isExpired = false ∧
    (hydrateResultObject dp now raw r (setMethod host)).expiry.isInAlertWindow = false := by
  refine ⟨?_, ?_, ?_, ?_, ?_⟩
  · unfold checkOutcome
    rw [hnet]
  · show parseDate dp raw.valid_to = none
    exact hbad
  · show (getExpiry (parseDate dp raw.valid_to) now (setMethod host)).days = none
    rw [show parseDate dp raw.valid_to = none from hbad]
    rfl
  · show (getExpiry (parseDate dp raw.valid_to) now (setMethod host)).isExpired = false
    rw [show parseDate dp raw.valid_to = none from hbad]
    rfl
  · show (getExpiry (parseDate dp raw.valid_to) now (setMethod host)).isInAlertWindow = false
    rw [show parseDate dp raw.valid_to = none from hbad]
    rfl

/-- Witness for unparseable_dates_no_failure at the sample certificate and
the nothing-parses Date.parse. -/
theorem unparseable_dates_no_failure_witness :
    netSample (setMethod { hostname := "www.google.com" }) = Except.ok sampleCert ∧
    noParse sampleCert.valid_to = none ∧
    (hydrateResultObject noParse 0 sampleCert 7
      (setMethod { hostname := "www.google.com" })).validTo = none :=
  ⟨rfl, rfl,
    (unparseable_dates_no_failure netSample noParse 0
      { hostname := "www.google.com" } 7 sampleCert rfl rfl).2.1⟩

/-- A fresh caller-supplied host spec with only a hostname. -/
def freshHost : HostObj := { hostname := "www.google.com" }

/-- C8 counterexample: config resolution (buildHostConfig) does not populate
method — after resolving a fresh host spec against the default config, the
referenced object's method field is still unset; it only becomes GET inside
checkHost, immediately before the request is issued. -/
theorem buildHostConfig_leaves_method_unset :
    ((buildHostConfig sampleConfig (fun _ => freshHost) [0]).fst 0).method = none := by
  rfl

/-- C8 amended: after config resolution, hostname, port and alertWindowDays
are concretely populated and the headers map holds exactly a User-Agent
entry, but method is untouched by resolution; method is set to GET by
checkHost (which mutates the referenced object) before the request, so at
request time every field of the resolved host is populated. -/
theorem resolution_populates_fields (cfg : Config) (h : HostObj) (net : Network)
    (dp : DateParse) (now : Int) (hp : Heap) (r : Nat) :
    (resolveHost cfg h).hostname = h.hostname ∧
    (resolveHost cfg h).port.isSome = true ∧
    (resolveHost cfg h).alertWindowDays.isSome = true ∧
    (∃ ua : String, (resolveHost cfg h).headers = some [("User-Agent", ua)]) ∧
    (resolveHost cfg h).method = h.method ∧
    ((checkHost net dp now hp r).fst r).method = some "GET" ∧
    (setMethod (resolveHost cfg h)).port.isSome = true := by
  refine ⟨rfl, rfl, rfl, ⟨jsOrStr h.userAgent cfg.userAgent, rfl⟩, rfl, ?_, rfl⟩
  show (heapMapAt setMethod hp r r).method = some "GET"
  simp [heapMapAt, heapSet, setMethod]

/-! Heap and orchestration lemmas. -/

theorem heapSet_self (hp : Heap) (r : Nat) (v : HostObj) : heapSet hp r v r = v := by
  simp [heapSet]

theorem heapSet_ne (hp : Heap) (r : Nat) (v : HostObj) {n : Nat} (h : n ≠ r) :
    heapSet hp r v n = hp n := by
  simp [heapSet, h]

theorem foldl_heapMapAt_not_mem (f : HostObj → HostObj) :
    ∀ (refs : List Nat) (hp : Heap) (n : Nat), n ∉ refs →
      refs.foldl (heapMapAt f) hp n = hp n := by
  intro refs
  induction refs with
  | nil => intro hp n _; rfl
  | cons r tl ih =>
    intro hp n hmem
    have hne : n ≠ r := by
      intro he
      exact hmem (he ▸ List.mem_cons_self r tl)
    have htl : n ∉ tl := fun ht => hmem (List.mem_cons_of_mem r ht)
    show tl.foldl (heapMapAt f) (heapMapAt f hp r) n = hp n
    rw [ih _ n htl]
    exact heapSet_ne hp r _ hne

theorem foldl_heapMapAt_mem (f : HostObj → HostObj) :
    ∀ (refs : List Nat) (hp : Heap) (n : Nat), refs.Nodup → n ∈ refs →
      refs.foldl (heapMapAt f) hp n = f (hp n) := by
  intro refs
  induction refs with
  | nil => intro hp n _ hmem; exact absurd hmem (List.not_mem_nil n)
  | cons r tl ih =>
    intro hp n hnd hmem
    obtain ⟨hr, hnd2⟩ := List.nodup_cons.mp hnd
    show tl.foldl (heapMapAt f) (heapMapAt f hp r) n = f (hp n)
    rcases List.mem_cons.mp hmem with he | ht
    · subst he
      rw [foldl_heapMapAt_not_mem f tl _ n hr]
      exact heapSet_self hp n _
    · have hne : n ≠ r := by
        intro he
        exact hr (he ▸ ht)
      rw [ih _ n hnd2 ht]
      rw [show heapMapAt f hp r n = hp n from heapSet_ne hp r _ hne]

theorem runChecks_fst (net : Network) (dp : DateParse) (now : Int) :
    ∀ (rs : List Nat) (hp : Heap),
      (runChecks net dp now hp rs).fst = rs.foldl (heapMapAt setMethod) hp := by
  intro rs
  induction rs with
  | nil => intro hp; rfl
  | cons r tl ih =>
    intro hp
    show (runChecks net dp now (heapMapAt setMethod hp r) tl).fst
        = tl.foldl (heapMapAt setMethod) (heapMapAt setMethod hp r)
    exact ih _

theorem runChecks_snd (net : Network) (dp : DateParse) (now : Int) :
    ∀ (rs : List Nat) (hp : Heap), rs.Nodup →
      (runChecks net dp now hp rs).snd
        = rs.map (fun r => checkOutcome net dp now (hp r) r) := by
  intro rs
  induction rs with
  | nil => intro hp _; rfl
  | cons r tl ih =>
    intro hp hnd
    obtain ⟨hr, hnd2⟩ := List.nodup_cons.mp hnd
    show checkOutcome net dp now (hp r) r
          :: (runChecks net dp now (heapMapAt setMethod hp r) tl).snd
        = checkOutcome net dp now (hp r) r
          :: tl.map (fun x => checkOutcome net dp now (hp x) x)
    congr 1
    rw [ih _ hnd2]
    apply List.map_congr_left
    intro x hx
    have hne : x ≠ r := by
      intro he
      exact hr (he ▸ hx)
    rw [show heapMapAt setMethod hp r x = hp x from heapSet_ne hp r _ hne]

theorem checkHosts_fst_mem (cfg : Config) (net : Network) (dp : DateParse)
    (now : Int) (order : List Nat) (hp : Heap) (refs : List Nat)
    (hnd : refs.Nodup) {n : Nat} (hn : n ∈ refs) :
    (checkHosts cfg net dp now order hp refs).fst n
      = setMethod (resolveHost cfg (hp n)) := by
  show (runChecks net dp now (refs.foldl (heapMapAt (resolveHost cfg)) hp) refs).fst n
      = setMethod (resolveHost cfg (hp n))
  rw [runChecks_fst]
  rw [foldl_heapMapAt_mem setMethod refs _ n hnd hn]
  rw [foldl_heapMapAt_mem (resolveHost cfg) refs hp n hnd hn]

theorem checkHosts_fst_not_mem (cfg : Config) (net : Network) (dp : DateParse)
    (now : Int) (order : List Nat) (hp : Heap) (refs : List Nat)
    {n : Nat} (hn : n ∉ refs) :
    (checkHosts cfg net dp now order hp refs).fst n = hp n := by
  show (runChecks net dp now (refs.foldl (heapMapAt (resolveHost cfg)) hp) refs).fst n
      = hp n
  rw [runChecks_fst]
  rw [foldl_heapMapAt_not_mem setMethod refs _ n hn]
  rw [foldl_heapMapAt_not_mem (resolveHost cfg) refs hp n hn]

theorem checkHosts_snd_eq (cfg : Config) (net : Network) (dp : DateParse)
    (now : Int) (order : List Nat) (hp : Heap) (refs : List Nat)
    (hnd : refs.Nodup) :
    (checkHosts cfg net dp now order hp refs).snd
      = promiseAll
          (refs.map (fun r => checkOutcome net dp now (resolveHost cfg (hp r)) r))
          order := by
  show promiseAll
      (runChecks net dp now (refs.foldl (heapMapAt (resolveHost cfg)) hp) refs).snd order
    = promiseAll
        (refs.map (fun r => checkOutcome net dp now (resolveHost cfg (hp r)) r)) order
  rw [runChecks_snd net dp now refs _ hnd]
  congr 1
  apply List.map_congr_left
  intro x hx
  rw [foldl_heapMapAt_mem (resolveHost cfg) refs hp x hnd hx]

theorem firstError_eq_none {ε α : Type} (outcomes : List (Except ε α))
    (hall : ∀ o ∈ outcomes, ∃ a, o = Except.ok a) :
    ∀ order : List Nat, firstError outcomes order = none := by
  intro order
  induction order with
  | nil => rfl
  | cons i tl ih =>
    unfold firstError
    cases hg : outcomes.get? i with
    | none => exact ih
    | some o =>
      obtain ⟨a, ha⟩ := hall o (List.get?_mem hg)
      subst ha
      exact ih

theorem firstError_mem {ε α : Type} (outcomes : List (Except ε α)) :
    ∀ (order : List Nat) (e : ε), firstError outcomes order = some e →
      ∃ i, i ∈ order ∧ outcomes.get? i = some (Except.error e) := by
  intro order
  induction order with
  | nil =>
    intro e h
    exact Option.noConfusion h
  | cons i tl ih =>
    intro e h
    unfold firstError at h
    cases hg : outcomes.get? i with
    | none =>
      rw [hg] at h
      obtain ⟨j, hj, hje⟩ := ih e h
      exact ⟨j, List.mem_cons_of_mem _ hj, hje⟩
    | some o =>
      cases o with
      | ok a =>
        rw [hg] at h
        obtain ⟨j, hj, hje⟩ := ih e h
        exact ⟨j, List.mem_cons_of_mem _ hj, hje⟩
      | error e2 =>
        rw [hg] at h
        have he2 : e2 = e := Option.some.inj h
        refine ⟨i, List.mem_cons_self i tl, ?_⟩
        rw [hg, he2]

theorem firstError_isSome {ε α : Type} (outcomes : List (Except ε α)) (e : ε)
    (i : Nat) (he : outcomes.get? i = some (Except.error e)) :
    ∀ order : List Nat, i ∈ order →
      ∃ e2, firstError outcomes order = some e2 := by
  intro order
  induction order with
  | nil => intro hi; exact absurd hi (List.not_mem_nil i)
  | cons j tl ih =>
    intro hi
    unfold firstError
    cases hg : outcomes.get? j with
    | none =>
      rcases List.mem_cons.mp hi with hij | ht
      · subst hij
        rw [hg] at he
        exact Option.noConfusion he
      · exact ih ht
    | some o =>
      cases o with
      | error e3 => exact ⟨e3, rfl⟩
      | ok a =>
        rcases List.mem_cons.mp hi with hij | ht
        · subst hij
          rw [hg] at he
          exact absurd he (by simp)
        · exact ih ht

theorem collectOk_all_ok {ε α : Type} :
    ∀ os : List (Except ε α), (∀ o ∈ os, ∃ a, o = Except.ok a) →
      ∃ l : List α, collectOk os = Except.ok l ∧ l.length = os.length ∧
        ∀ (i : Nat) (h1 : i < os.length) (h2 : i < l.length),
          os.get ⟨i, h1⟩ = Except.ok (l.get ⟨i, h2⟩) := by
  intro os
  induction os with
  | nil =>
    intro _
    exact ⟨[], rfl, rfl, fun i h1 _ => absurd h1 (Nat.not_lt_zero i)⟩
  | cons o tl ih =>
    intro hall
    obtain ⟨a, ha⟩ := hall o (List.mem_cons_self o tl)
    subst ha
    obtain ⟨l, hl, hlen, hget⟩ := ih (fun x hx => hall x (List.mem_cons_of_mem _ hx))
    refine ⟨a :: l, ?_, ?_, ?_⟩
    · show (collectOk tl).map (fun l2 => a :: l2) = Except.ok (a :: l)
      rw [hl]
      rfl
    · show l.length + 1 = tl.length + 1
      rw [hlen]
    · intro i h1 h2
      cases i with
      | zero => rfl
      | succ n =>
        exact hget n (Nat.lt_of_succ_lt_succ h1) (Nat.lt_of_succ_lt_succ h2)

theorem promiseAll_all_ok {ε α : Type} (outcomes : List (Except ε α))
    (hall : ∀ o ∈ outcomes, ∃ a, o = Except.ok a) :
    ∃ l : List α, (∀ order : List Nat, promiseAll outcomes order = Except.ok l) ∧
      l.length = outcomes.length ∧
      ∀ (i : Nat) (h1 : i < outcomes.length) (h2 : i < l.length),
        outcomes.get ⟨i, h1⟩ = Except.ok (l.get ⟨i, h2⟩) := by
  obtain ⟨l, hl, hlen, hget⟩ := collectOk_all_ok outcomes hall
  refine ⟨l, ?_, hlen, hget⟩
  intro order
  unfold promiseAll
  rw [firstError_eq_none outcomes hall order]
  exact hl

theorem promiseAll_error {ε α : Type} (outcomes : List (Except ε α)) (order : List Nat)
    (hcov : ∀ j : Nat, j < outcomes.length → j ∈ order)
    (i : Nat) (hi : i < outcomes.length) (e : ε)
    (he : outcomes.get ⟨i, hi⟩ = Except.error e) :
    (∃ e2 : ε, promiseAll outcomes order = Except.error e2 ∧
      firstError outcomes order = some e2 ∧
      ∃ j : Nat, ∃ hj : j < outcomes.length,
        outcomes.get ⟨j, hj⟩ = Except.error e2) ∧
    ∀ l : List α, promiseAll outcomes order ≠ Except.ok l := by
  have hgq : outcomes.get? i = some (Except.error e) := by
    rw [List.get?_eq_get hi, he]
  obtain ⟨e2, he2⟩ := firstError_isSome outcomes e i hgq order (hcov i hi)
  constructor
  · refine ⟨e2, ?_, he2, ?_⟩
    · unfold promiseAll
      rw [he2]
    · obtain ⟨j, hjmem, hje⟩ := firstError_mem outcomes order e2 he2
      have hjlt : j < outcomes.length := by
        by_contra hnot
        rw [List.get?_eq_none.mpr (Nat.le_of_not_lt hnot)] at hje
        exact Option.noConfusion hje
      refine ⟨j, hjlt, ?_⟩
      rw [List.get?_eq_get hjlt] at hje
      exact Option.some.inj hje
  · intro l hok
    unfold promiseAll at hok
    rw [he2] at hok
    exact Except.noConfusion hok

theorem checkOutcome_host (net : Network) (dp : DateParse) (now : Int)
    (host : HostObj) (r : Nat) (res : CheckResult)
    (h : checkOutcome net dp now host r = Except.ok res) : res.host = r := by
  unfold checkOutcome at h
  cases hnet : net (setMethod host) with
  | ok raw =>
    rw [hnet] at h
    have hres := Except.ok.inj h
    rw [← hres]
    rfl
  | error e =>
    rw [hnet] at h
    exact Except.noConfusion h

/-- A Date.parse that parses the two sample date strings (60 days ahead and
90 days before a clock reading of 0) and nothing else. -/
def dpSample : DateParse := fun s =>
  if s = "to-string" then some 5184000000
  else if s = "from-string" then some (-7776000000)
  else none

/-- A network on which every request fails with the stub's error
(src/test/helpers/https.stub.js:14). -/
def netFail : Network := fun _ => Except.error "it failed yo"

/-- C5: if every per-host check succeeds, checkHosts fulfils with a
CheckResult list of the same length as the input whose index i is the result
of input host i's check — and the fulfilment value is the same for every
completion order of the per-host promises. -/
theorem checkHosts_preserves_order (cfg : Config) (net : Network) (dp : DateParse)
    (now : Int) (hp : Heap) (refs : List Nat) (hnd : refs.Nodup)
    (hok : ∀ r ∈ refs, ∃ res : CheckResult,
      checkOutcome net dp now (resolveHost cfg (hp r)) r = Except.ok res) :
    ∃ l : List CheckResult,
      (∀ order : List Nat,
        (checkHosts cfg net dp now order hp refs).snd = Except.ok l) ∧
      l.length = refs.length ∧
      ∀ (i : Nat) (h1 : i < refs.length) (h2 : i < l.length),
        Except.ok (l.get ⟨i, h2⟩)
          = checkOutcome net dp now
              (resolveHost cfg (hp (refs.get ⟨i, h1⟩))) (refs.get ⟨i, h1⟩) := by
  have hallok : ∀ o ∈ refs.map
      (fun r => checkOutcome net dp now (resolveHost cfg (hp r)) r),
      ∃ a, o = Except.ok a := by
    intro o ho
    obtain ⟨r, hr, hro⟩ := List.mem_map.mp ho
    obtain ⟨res, hres⟩ := hok r hr
    refine ⟨res, ?_⟩
    rw [← hro]
    exact hres
  obtain ⟨l, horders, hlen, hget⟩ := promiseAll_all_ok
    (refs.map (fun r => checkOutcome net dp now (resolveHost cfg (hp r)) r)) hallok
  refine ⟨l, ?_, ?_, ?_⟩
  · intro order
    rw [checkHosts_snd_eq cfg net dp now order hp refs hnd]
    exact horders order
  · rw [hlen, List.length_map]
  · intro i h1 h2
    have hlm : i < (refs.map
        (fun r => checkOutcome net dp now (resolveHost cfg (hp r)) r)).length := by
      rw [List.length_map]
      exact h1
    have hi := hget i hlm h2
    rw [List.get_map] at hi
    exact hi.symm

/-- Witness for checkHosts_preserves_order on a singleton host list against
the sample network and completion order [0]. -/
theorem checkHosts_preserves_order_witness :
    ([0] : List Nat).Nodup ∧
    ∃ l : List CheckResult,
      (∀ order : List Nat,
        (checkHosts sampleConfig netSample dpSample 0 order
          (fun _ => freshHost) [0]).snd = Except.ok l) ∧
      l.length = ([0] : List Nat).length ∧
      ∀ (i : Nat) (h1 : i < ([0] : List Nat).length) (h2 : i < l.length),
        Except.ok (l.get ⟨i, h2⟩)
          = checkOutcome netSample dpSample 0
              (resolveHost sampleConfig
                ((fun _ => freshHost) (([0] : List Nat).get ⟨i, h1⟩)))
              (([0] : List Nat).get ⟨i, h1⟩) :=
  ⟨by decide,
    checkHosts_preserves_order sampleConfig netSample dpSample 0
      (fun _ => freshHost) [0] (by decide) (fun r _ => ⟨_, rfl⟩)⟩

/-- C6: if any per-host check fails, checkHosts as a whole rejects — the
rejection value is the first rejection in completion order (whenever the
completion order reaches every host), it is the error of one of the failing
hosts, and no ok list (no partial results) is ever returned. -/
theorem checkHosts_all_or_nothing (cfg : Config) (net : Network) (dp : DateParse)
    (now : Int) (order : List Nat) (hp : Heap) (refs : List Nat)
    (hnd : refs.Nodup)
    (hcov : ∀ j : Nat, j < refs.length → j ∈ order)
    (i : Nat) (hi : i < refs.length) (e : String)
    (he : checkOutcome net dp now
        (resolveHost cfg (hp (refs.get ⟨i, hi⟩))) (refs.get ⟨i, hi⟩)
      = Except.error e) :
    (∃ e2 : String,
      (checkHosts cfg net dp now order hp refs).snd = Except.error e2 ∧
      firstError
        (refs.map (fun r => checkOutcome net dp now (resolveHost cfg (hp r)) r))
        order = some e2 ∧
      ∃ j : Nat, ∃ hj : j < refs.length,
        checkOutcome net dp now
          (resolveHost cfg (hp (refs.get ⟨j, hj⟩))) (refs.get ⟨j, hj⟩)
          = Except.error e2) ∧
    ∀ l : List CheckResult,
      (checkHosts cfg net dp now order hp refs).snd ≠ Except.ok l := by
  have hcov2 : ∀ j : Nat, j < (refs.map
      (fun r => checkOutcome net dp now (resolveHost cfg (hp r)) r)).length →
      j ∈ order := by
    intro j hj
    rw [List.length_map] at hj
    exact hcov j hj
  have hil : i < (refs.map
      (fun r => checkOutcome net dp now (resolveHost cfg (hp r)) r)).length := by
    rw [List.length_map]
    exact hi
  have hge : (refs.map
      (fun r => checkOutcome net dp now (resolveHost cfg (hp r)) r)).get ⟨i, hil⟩
      = Except.error e := by
    rw [List.get_map]
    exact he
  obtain ⟨⟨e2, hpe, hfe, j, hj, hje⟩, hnopart⟩ := promiseAll_error
    (refs.map (fun r => checkOutcome net dp now (resolveHost cfg (hp r)) r))
    order hcov2 i hil e hge
  constructor
  · refine ⟨e2, ?_, hfe, ?_⟩
    · rw [checkHosts_snd_eq cfg net dp now order hp refs hnd]
      exact hpe
    · have hjr : j < refs.length := by
        have := hj
        rw [List.length_map] at this
        exact this
      refine ⟨j, hjr, ?_⟩
      rw [List.get_map] at hje
      exact hje
  · intro l
    rw [checkHosts_snd_eq cfg net dp now order hp refs hnd]
    exact hnopart l

/-- Witness for checkHosts_all_or_nothing on a singleton host list whose
check fails with the stub's error. -/
theorem checkHosts_all_or_nothing_witness :
    ([0] : List Nat).Nodup ∧
    checkOutcome netFail dpSample 0
        (resolveHost sampleConfig (((fun _ => freshHost) : Heap)
          (([0] : List Nat).get ⟨0, by decide⟩))) (([0] : List Nat).get ⟨0, by decide⟩)
      = Except.error "it failed yo" ∧
    ∀ l : List CheckResult,
      (checkHosts sampleConfig netFail dpSample 0 [0]
        (fun _ => freshHost) [0]).snd ≠ Except.ok l :=
  ⟨by decide, rfl,
    (checkHosts_all_or_nothing sampleConfig netFail dpSample 0 [0]
      (fun _ => freshHost) [0] (by decide)
      (fun j hj => by
        have hj1 : j < 1 := by simpa using hj
        have hj0 : j = 0 := by omega
        rw [hj0]
        exact List.mem_cons_self 0 [])
      0 (by decide) "it failed yo" rfl).2⟩

/-- C10: checkHosts resolves the caller's host objects in place — after the
call, each object the caller supplied carries the resolved port,
alertWindowDays, User-Agent header and method = GET, objects not passed are
untouched — and each CheckResult's host field is the very reference the
caller supplied at the same position, not a copy. -/
theorem checkHosts_mutates_in_place (cfg : Config) (net : Network) (dp : DateParse)
    (now : Int) (order : List Nat) (hp : Heap) (refs : List Nat)
    (hnd : refs.Nodup)
    (hok : ∀ r ∈ refs, ∃ res : CheckResult,
      checkOutcome net dp now (resolveHost cfg (hp r)) r = Except.ok res) :
    (∀ r ∈ refs, (checkHosts cfg net dp now order hp refs).fst r
        = setMethod (resolveHost cfg (hp r))) ∧
    (∀ n : Nat, n ∉ refs →
      (checkHosts cfg net dp now order hp refs).fst n = hp n) ∧
    ∃ l : List CheckResult,
      (checkHosts cfg net dp now order hp refs).snd = Except.ok l ∧
      l.length = refs.length ∧
      ∀ (i : Nat) (h1 : i < refs.length) (h2 : i < l.length),
        (l.get ⟨i, h2⟩).host = refs.get ⟨i, h1⟩ := by
  refine ⟨?_, ?_, ?_⟩
  · intro r hr
    exact checkHosts_fst_mem cfg net dp now order hp refs hnd hr
  · intro n hn
    exact checkHosts_fst_not_mem cfg net dp now order hp refs hn
  · have hallok : ∀ o ∈ refs.map
        (fun r => checkOutcome net dp now (resolveHost cfg (hp r)) r),
        ∃ a, o = Except.ok a := by
      intro o ho
      obtain ⟨r, hr, hro⟩ := List.mem_map.mp ho
      obtain ⟨res, hres⟩ := hok r hr
      refine ⟨res, ?_⟩
      rw [← hro]
      exact hres
    obtain ⟨l, horders, hlen, hget⟩ := promiseAll_all_ok
      (refs.map (fun r => checkOutcome net dp now (resolveHost cfg (hp r)) r)) hallok
    refine ⟨l, ?_, ?_, ?_⟩
    · rw [checkHosts_snd_eq cfg net dp now order hp refs hnd]
      exact horders order
    · rw [hlen, List.length_map]
    · intro i h1 h2
      have hlm : i < (refs.map
          (fun r => checkOutcome net dp now (resolveHost cfg (hp r)) r)).length := by
        rw [List.length_map]
        exact h1
      have hi := hget i hlm h2
      rw [List.get_map] at hi
      exact checkOutcome_host net dp now
        (resolveHost cfg (hp (refs.get ⟨i, h1⟩))) (refs.get ⟨i, h1⟩)
        (l.get ⟨i, h2⟩) hi

/-- Witness for checkHosts_mutates_in_place: after checking the singleton
list [reference 0], the caller's object behind reference 0 carries the
resolved fields and method GET. -/
theorem checkHosts_mutates_in_place_witness :
    ([0] : List Nat).Nodup ∧
    (0 : Nat) ∈ ([0] : List Nat) ∧
    (checkHosts sampleConfig netSample dpSample 0 [0]
        (fun _ => freshHost) [0]).fst 0
      = setMethod (resolveHost sampleConfig freshHost) :=
  ⟨by decide, List.mem_cons_self 0 [],
    (checkHosts_mutates_in_place sampleConfig netSample dpSample 0 [0]
      (fun _ => freshHost) [0] (by decide) (fun r _ => ⟨_, rfl⟩)).1
      0 (List.mem_cons_self 0 [])⟩

end CertExpiry
